import Mathlib

/-!
Verification of the profile synchronization engine of `claude-profiles.mjs`.

The definitions below are shallow embeddings of the functions of the source
file.  Paths are modelled as `List Char` (the character sequence of the
JavaScript string); JSON values as the inductive `JSValue`; machine side
effects (temp-directory creation and removal, network calls, process exit)
as explicit effect traces.  Floating point only occurs in the source in
`formatBytes` (display formatting, elided here) and in the base64 factor
`1.33`, which is modelled exactly as the rational 133/100 under `Math.ceil`.
-/

namespace ClaudeProfiles

/-! ## Path model

JavaScript operations used by the snapshot filter:
`file.startsWith(p)` and `file.split(/[/\\]/)`. -/

/-- `true` when the character is one of the two path separators of the
regular expression `[/\\]`. -/
def isSep (c : Char) : Bool := c = '/' || c = '\\'

/-- Embedding of JavaScript `String.prototype.startsWith` on character
lists. -/
def leadsWith : List Char → List Char → Bool
  | [], _ => true
  | _ :: _, [] => false
  | a :: as, b :: bs => a == b && leadsWith as bs

/-- Embedding of JavaScript `file.split(/[/\\]/)`: splitting on every
separator character, keeping empty segments, `[""]` on the empty string. -/
def splitSegs : List Char → List (List Char)
  | [] => [[]]
  | c :: cs =>
    let rest := splitSegs cs
    if isSep c then [] :: rest
    else (c :: rest.headD []) :: rest.tail

/-- The segment list of a relative path, as computed by
`file.split(/[/\\]/)` in `saveProfile` / `saveProfileSilent`. -/
def pathSegments (file : List Char) : List (List Char) := splitSegs file

/-- The `projects` segment constant. -/
def projectsSeg : List Char := "projects".toList

/-- The `.claude` segment constant. -/
def claudeSeg : List Char := ".claude".toList

/-- First guard of the filter callback:
`file.startsWith('projects/') || file.startsWith('projects\\')`. -/
def startsWithProjects (file : List Char) : Bool :=
  leadsWith "projects/".toList file || leadsWith "projects\\".toList file

/-- The indexed loop of the filter callback:
`for i`, `if (pathParts[i] === '.claude' && i > 0) return false`. -/
def hasNestedClaude (parts : List (List Char)) : Bool :=
  (List.range parts.length).any fun i => decide (0 < i) && parts.getD i [] == claudeSeg

/-- The filter callback passed to `files.filter` in `saveProfile` (lines
1644–1662) and `saveProfileSilent` (lines 1363–1381): returns `true` when
the relative path is kept in the snapshot. -/
def snapshotFilterKeeps (file : List Char) : Bool :=
  if startsWithProjects file then false
  else if hasNestedClaude (pathSegments file) then false
  else true

/-- The filter used by `calculateFilesHash` when `skipProjects` is set:
`!file.startsWith('projects/') && !file.startsWith('projects\\')`. -/
def hashFilterKeeps (file : List Char) : Bool :=
  !(leadsWith "projects/".toList file) && !(leadsWith "projects\\".toList file)

/-- Modelled from the spec (§4.1 rule 1, the claim under test): exclusion of
every path one of whose whole segments equals `projects`, including the path
that is the subtree itself. -/
def specSubtreeExcluded (file : List Char) : Bool :=
  (pathSegments file).contains projectsSeg

/-! ## Size classification (`checkArchiveSize`, lines 312–327) -/

def GIST_SIZE_LIMIT_API : Nat := 40 * 1024 * 1024

def GIST_SIZE_LIMIT_WEB : Nat := 20 * 1024 * 1024

def GIST_SIZE_WARNING : Nat := 10 * 1024 * 1024

/-- `Math.ceil(sizeBytes * 1.33)` with the factor taken exactly. -/
def ceilBase64 (n : Nat) : Nat := (133 * n + 99) / 100

/-- Result record of `checkArchiveSize`.  The two `…Formatted` display
strings of the source (produced by the floating-point `formatBytes`) are
elided. -/
structure SizeCheck where
  size : Nat
  actualUploadSize : Nat
  withinLimit : Bool
  isLarge : Bool
  exceedsWebLimit : Bool
  exceedsApiLimit : Bool
  deriving Repr, DecidableEq

/-- Embedding of `checkArchiveSize(sizeBytes, isBase64Encoded)`. -/
def checkArchiveSize (sizeBytes : Nat) (isBase64Encoded : Bool := false) : SizeCheck :=
  let actualSize := if isBase64Encoded then sizeBytes else ceilBase64 sizeBytes
  { size := sizeBytes
    actualUploadSize := actualSize
    withinLimit := actualSize ≤ GIST_SIZE_LIMIT_API
    isLarge := GIST_SIZE_WARNING < actualSize
    exceedsWebLimit := GIST_SIZE_LIMIT_WEB < actualSize
    exceedsApiLimit := GIST_SIZE_LIMIT_API < actualSize }

/-! ## JSON value model and credential conversion
(`convertCredentialsFormat`, lines 356–404) -/

/-- JSON-like JavaScript values as manipulated by the credential code. -/
inductive JSValue where
  | null
  | undefined
  | bool (b : Bool)
  | num (n : Int)
  | str (s : String)
  | arr (xs : List JSValue)
  | obj (fields : List (String × JSValue))

/-- Property access `v.k`: field lookup on objects, `undefined` otherwise.
(The source never accesses a property of `null`/`undefined` in the
modelled paths.) -/
def jsGet (v : JSValue) (k : String) : JSValue :=
  match v with
  | .obj fields =>
    match fields.lookup k with
    | some x => x
    | none => .undefined
  | _ => .undefined

/-- JavaScript truthiness (NaN does not occur in the modelled values). -/
def truthy : JSValue → Bool
  | .null => false
  | .undefined => false
  | .bool b => b
  | .num n => n ≠ 0
  | .str s => s ≠ ""
  | .arr _ => true
  | .obj _ => true

/-- JavaScript logical or `a || b`. -/
def jsOr (a b : JSValue) : JSValue := if truthy a then a else b

/-- Modelled from the spec: the nullish coalescing operator `a ?? b` that
the specification table uses for the flat-legacy conversion row. -/
def jsNullish (a b : JSValue) : JSValue :=
  match a with
  | .null => b
  | .undefined => b
  | x => x

/-- The object built by the flat-legacy branch of `convertCredentialsFormat`
(identical in the darwin and the non-darwin arm of the source). -/
def wrapFlatLegacy (credentials : JSValue) : JSValue :=
  .obj [("claudeAiOauth", .obj
    [ ("accessToken", jsGet credentials "access_token")
    , ("refreshToken", jsGet credentials "refresh_token")
    , ("expiresAt", jsOr (jsGet credentials "expiry_date") (jsGet credentials "expiresAt"))
    , ("scopes", jsOr (jsGet credentials "scopes") (.arr [.str "user:inference"]))
    , ("subscriptionType", jsOr (jsGet credentials "subscriptionType") (.str "max")) ])]

/-- Embedding of `convertCredentialsFormat(credentials, targetPlatform)`.
The source duplicates the same three-way branch in the `'darwin'` arm and
in the other arm; the duplication is kept here. -/
def convertCredentialsFormat (credentials : JSValue) (targetPlatform : String) : JSValue :=
  if targetPlatform = "darwin" then
    if truthy (jsGet credentials "claudeAiOauth") then
      credentials
    else if truthy (jsGet credentials "access_token") then
      wrapFlatLegacy credentials
    else if truthy (jsGet credentials "accessToken") then
      .obj [("claudeAiOauth", credentials)]
    else
      credentials
  else
    if truthy (jsGet credentials "claudeAiOauth") then
      credentials
    else if truthy (jsGet credentials "access_token") then
      wrapFlatLegacy credentials
    else if truthy (jsGet credentials "accessToken") then
      .obj [("claudeAiOauth", credentials)]
    else
      credentials

/-! ## Watch scheduler (`watchProfile`, lines 1059–1330)

The handler-local mutable variables `saveInProgress`, `pendingSave` and
`changeDetected` are the fields of `WatchState`; `inFlight` counts the
`saveProfileSilent` invocations that have been started (the `await` at the
save call) and not yet finished (the `finally` block).  Events are the
suspension points of the single-threaded event loop: a file-change
notification, the debounce timer firing (`elapsedOk` records whether
`timeSinceLastSave >= minSaveInterval`), the throttle timer firing, and a
started save finishing (`ok` records whether `saveProfileSilent`
resolved). -/

structure WatchState where
  saveInProgress : Bool
  pendingSave : Bool
  changeDetected : Bool
  inFlight : Nat
  deriving Repr, DecidableEq

/-- The initial watch state (lines 1082–1096). -/
def initWatchState : WatchState :=
  { saveInProgress := false, pendingSave := false, changeDetected := false, inFlight := 0 }

inductive WatchEvent where
  | change
  | debounceFire (elapsedOk : Bool)
  | throttleFire
  | saveFinish (ok : Bool)
  deriving Repr, DecidableEq

/-- One event-loop step of the watch scheduler, translated from the bodies
of `handleFileChange`, the two `setTimeout` callbacks, and the save
completion code. -/
def watchStep (s : WatchState) (e : WatchEvent) : WatchState :=
  match e with
  | .change =>
    -- handleFileChange: `changeDetected = true`, timers rearmed
    { s with changeDetected := true }
  | .debounceFire elapsedOk =>
    -- the debounce `setTimeout` callback (lines 1111–1231)
    if !s.changeDetected then s
    else
      let s1 := { s with changeDetected := false }
      if elapsedOk then
        if s1.saveInProgress then s1
        else { s1 with saveInProgress := true, inFlight := s1.inFlight + 1 }
      else if !s1.pendingSave then { s1 with pendingSave := true }
      else s1
  | .throttleFire =>
    -- the inner `setTimeout` callback (lines 1178–1229)
    if s.pendingSave then
      if s.saveInProgress then { s with pendingSave := false }
      else { s with saveInProgress := true, inFlight := s.inFlight + 1 }
    else s
  | .saveFinish ok =>
    -- completion of `await saveProfileSilent`: the `finally` resets
    -- `saveInProgress`; the success path also clears `pendingSave`
    if s.inFlight = 0 then s
    else
      { s with inFlight := s.inFlight - 1
               saveInProgress := false
               pendingSave := if ok then false else s.pendingSave }

/-- Reachability of a watch state from the initial state under event-loop
steps. -/
inductive WatchReachable : WatchState → Prop where
  | init : WatchReachable initWatchState
  | step {s : WatchState} (e : WatchEvent) : WatchReachable s → WatchReachable (watchStep s e)

/-! ## Effect traces of the store and restore operations

`saveProfile` (lines 1579–1851), `saveProfileSilent` (lines 1335–1500) and
`restoreProfile` (lines 2064–2349) are modelled as functions from the
observable outcomes of their environment (archive contents, size, upload
result, download result, verification result) to the trace of the side
effects they perform, in source order. -/

inductive Effect where
  | mkdtemp
  | rmTemp
  | netFindOrCreateGist
  | netListFiles
  | netDownload
  | netUpload
  | exitProcess (code : Nat)
  deriving Repr, DecidableEq

/-- Outcome of the `gh gist edit … --add …` upload subprocess, classified
as the source classifies its diagnostic output. -/
inductive UploadOutcome where
  | ok
  | tooLarge
  | rateLimited
  | conflict
  | otherFailure
  deriving Repr, DecidableEq

/-- Errors thrown by `saveProfileSilent`.  The message prefix rendered with
the floating-point `formatBytes` is elided; the constructors carry the raw
and encoded sizes and the remediation line appended after the newline. -/
inductive SaveError where
  | profileTooLarge (size actualSize : Nat) (remediation : String)
  | uploadTooLarge (size actualSize : Nat) (remediation : String)
  | rateLimit
  | http409
  | uploadFailed
  deriving Repr, DecidableEq

/-- Remediation line of the pre-flight size error of `saveProfileSilent`
(lines 1429–1435): the `options.skipProjects` branch. -/
def remediationLine (skipProjects : Bool) : String :=
  if skipProjects then
    "Consider manually cleaning up ~/.claude/ directory."
  else
    "Consider using --skip-projects option to exclude the projects folder."

/-- Embedding of `saveProfileSilent` from the point where the archive has
been written (its staging directory was created by `mkdtemp` at entry):
effect trace and result.  The `finally` block removes the staging directory
on every path. -/
def saveProfileSilentFlow (zipLen : Nat) (skipProjects : Bool)
    (upload : UploadOutcome) : List Effect × Except SaveError Unit :=
  let sizeCheck := checkArchiveSize zipLen
  if !sizeCheck.withinLimit then
    ([.mkdtemp, .rmTemp],
     .error (.profileTooLarge zipLen sizeCheck.actualUploadSize (remediationLine skipProjects)))
  else
    match upload with
    | .ok => ([.mkdtemp, .netFindOrCreateGist, .netUpload, .rmTemp], .ok ())
    | .tooLarge =>
      ([.mkdtemp, .netFindOrCreateGist, .netUpload, .rmTemp],
       .error (.uploadTooLarge zipLen sizeCheck.actualUploadSize (remediationLine skipProjects)))
    | .rateLimited =>
      ([.mkdtemp, .netFindOrCreateGist, .netUpload, .rmTemp], .error .rateLimit)
    | .conflict =>
      ([.mkdtemp, .netFindOrCreateGist, .netUpload, .rmTemp], .error .http409)
    | .otherFailure =>
      ([.mkdtemp, .netFindOrCreateGist, .netUpload, .rmTemp], .error .uploadFailed)

/-- Embedding of `saveProfile` from the creation of the staging directory
(line 1611): effect trace.  Thrown errors are caught by the surrounding
`catch` block, which logs and calls `process.exit(1)` without removing the
staging directory; only the success path (line 1822) and the
no-files-found path (line 1721) remove it. -/
def saveProfileFlow (hasFiles : Bool) (zipLen : Nat) (_skipProjects : Bool)
    (upload : UploadOutcome) : List Effect :=
  [.mkdtemp] ++
  (if !hasFiles then [.rmTemp, .exitProcess 1]
   else
     let sizeCheck := checkArchiveSize zipLen
     if !sizeCheck.withinLimit then [.exitProcess 1]
     else
       [.netFindOrCreateGist, .netUpload] ++
       (match upload with
        | .ok => [.rmTemp]
        | _ => [.exitProcess 1]))

/-- Embedding of `restoreProfile`: effect trace.  The `catch` block (line
2328) calls `process.exit(1)` without removing the staging directory; only
the success path (line 2322) removes it. -/
def restoreProfileFlow (profileFound : Bool) (dataNonEmpty : Bool)
    (verifyValid : Bool) : List Effect :=
  [.netFindOrCreateGist, .mkdtemp, .netListFiles] ++
  (if !profileFound then [.exitProcess 1]
   else
     [.netDownload] ++
     (if !dataNonEmpty then [.exitProcess 1]
      else if !verifyValid then [.exitProcess 1]
      else [.rmTemp]))

/-- Embedding of `verifyProfile` (lines 763–997): effect trace.  The body
after `mkdtemp` (line 773) is an inner `try` whose `finally` (line 969)
removes the staging directory before any thrown error reaches the outer
`catch` (which then calls `process.exit(1)`), so removal happens on the
not-found, empty-data, extraction-failure and success paths alike. -/
def verifyProfileFlow (profileFound : Bool) (dataNonEmpty : Bool)
    (extractOk : Bool) : List Effect :=
  [.netFindOrCreateGist, .mkdtemp, .netListFiles] ++
  (if !profileFound then [.rmTemp, .exitProcess 1]
   else
     [.netDownload] ++
     (if !dataNonEmpty then [.rmTemp, .exitProcess 1]
      else if !extractOk then [.rmTemp, .exitProcess 1]
      else [.rmTemp]))

/-- A trace cleans up its staging directory when every `mkdtemp` is matched
by a later removal, i.e. `rmTemp` occurs whenever `mkdtemp` does. -/
def cleansUpTemp (trace : List Effect) : Bool :=
  !(trace.contains .mkdtemp) || trace.contains .rmTemp

/-! ## Verification of a downloaded profile
(`verifyDownloadedProfile`, lines 1856–2059)

A credential export file in the unpacked archive is modelled as
`Option (Except String JSValue)`: `none` when the file is absent,
`some (.error msg)` when it is present but `JSON.parse` throws `msg`,
`some (.ok v)` when it parses to `v`. -/

/-- `value === undefined || value === null`, the missing-field test of the
verifier. -/
def isMissingField : JSValue → Bool
  | .null => true
  | .undefined => true
  | _ => false

/-- `Object.entries` order of the modern wrapped credential fields. -/
def wrappedFieldNames : List String :=
  ["accessToken", "refreshToken", "expiresAt", "scopes", "subscriptionType"]

/-- `Object.entries` order of the legacy flat credential fields. -/
def legacyFieldNames : List String :=
  ["access_token", "refresh_token", "expiry_date", "scopes", "subscriptionType"]

def presentOf (names : List String) (v : JSValue) : List String :=
  names.filter fun k => !isMissingField (jsGet v k)

def missingOf (names : List String) (v : JSValue) : List String :=
  names.filter fun k => isMissingField (jsGet v k)

/-- Issue text for a modern Linux credential record with missing fields. -/
def linuxModernIssue (pres miss : List String) : String :=
  "Linux credentials (.credentials.json):\n   Present: claudeAiOauth.\x7b" ++
    String.intercalate ", " pres ++
    "\x7d\n   Missing: claudeAiOauth.\x7b" ++ String.intercalate ", " miss ++ "\x7d"

/-- Issue text for a legacy Linux credential record with missing fields. -/
def linuxLegacyIssue (pres miss : List String) : String :=
  "Linux credentials (.credentials.json - old format):\n   Present: " ++
    String.intercalate ", " pres ++ "\n   Missing: " ++ String.intercalate ", " miss

/-- Issue text for a macOS credential record with missing fields. -/
def macosIssue (pres miss : List String) : String :=
  "macOS credentials (.macos.credentials.json):\n   Present: claudeAiOauth.\x7b" ++
    String.intercalate ", " pres ++
    "\x7d\n   Missing: claudeAiOauth.\x7b" ++ String.intercalate ", " miss ++ "\x7d"

/-- Processing of the Linux credential export by the verifier (lines
1898–1988): the issues pushed and whether `valid` is forced to `false`. -/
def checkLinuxCredsFile : Option (Except String JSValue) → List String × Bool
  | none => ([], false)
  | some (.error msg) => (["Linux credentials file is not valid JSON: " ++ msg], true)
  | some (.ok v) =>
    if truthy (jsGet v "claudeAiOauth") then
      let oauth := jsGet v "claudeAiOauth"
      let miss := missingOf wrappedFieldNames oauth
      ((if miss.isEmpty then [] else [linuxModernIssue (presentOf wrappedFieldNames oauth) miss]),
       !(truthy (jsGet oauth "accessToken") && truthy (jsGet oauth "refreshToken")))
    else if truthy (jsGet v "access_token") then
      let miss := missingOf legacyFieldNames v
      ((if miss.isEmpty then [] else [linuxLegacyIssue (presentOf legacyFieldNames v) miss]),
       !(truthy (jsGet v "access_token") && truthy (jsGet v "refresh_token")))
    else
      (["Linux credentials file has unrecognized format"], true)

/-- Processing of the macOS credential export by the verifier (lines
1990–2033). -/
def checkMacosCredsFile : Option (Except String JSValue) → List String × Bool
  | none => ([], false)
  | some (.error msg) => (["macOS credentials file is not valid JSON: " ++ msg], true)
  | some (.ok v) =>
    if truthy (jsGet v "claudeAiOauth") then
      let oauth := jsGet v "claudeAiOauth"
      let miss := missingOf wrappedFieldNames oauth
      ((if miss.isEmpty then [] else [macosIssue (presentOf wrappedFieldNames oauth) miss]),
       !(truthy (jsGet oauth "accessToken") && truthy (jsGet oauth "refreshToken")))
    else
      (["macOS credentials missing claudeAiOauth wrapper object"], true)

structure VerifyResult where
  valid : Bool
  issues : List String
  deriving Repr, DecidableEq

/-- Embedding of `verifyDownloadedProfile`.  `claudeJsonStat` is the result
of `stat` on the unpacked `.claude.json`: `none` when the entry is absent,
`some b` with `b = stats.isFile()` otherwise. -/
def verifyDownloadedProfile (extractOk : Bool)
    (linuxCreds macosCreds : Option (Except String JSValue))
    (claudeJsonStat : Option Bool) : VerifyResult :=
  if !extractOk then
    { valid := false, issues := ["Failed to extract profile archive"] }
  else
    let hasCredentials := linuxCreds.isSome || macosCreds.isSome
    let credStep :=
      if !hasCredentials then
        (["Missing: Claude credentials (no .credentials.json or .macos.credentials.json found)"],
         true)
      else
        let lin := checkLinuxCredsFile linuxCreds
        let mac := checkMacosCredsFile macosCreds
        (lin.1 ++ mac.1, lin.2 || mac.2)
    let claudeJsonMissing :=
      match claudeJsonStat with
      | some true => false
      | some false => true
      | none => true
    { valid := !credStep.2 && !claudeJsonMissing
      issues := credStep.1 ++ (if claudeJsonMissing then ["Missing: Claude configuration"] else []) }

/-! ## Lemmas about the path model -/

theorem splitSegs_ne_nil (cs : List Char) : splitSegs cs ≠ [] := by
  cases cs with
  | nil => simp [splitSegs]
  | cons c cs =>
    simp only [splitSegs]
    split <;> simp

theorem leadsWith_iff (pre s : List Char) :
    leadsWith pre s = true ↔ ∃ t, s = pre ++ t := by
  induction pre generalizing s with
  | nil => simp [leadsWith]
  | cons a as ih =>
    cases s with
    | nil => simp [leadsWith]
    | cons b bs =>
      simp only [leadsWith, Bool.and_eq_true, beq_iff_eq, ih, List.cons_append,
        List.cons.injEq]
      constructor
      · rintro ⟨rfl, t, rfl⟩
        exact ⟨t, rfl, rfl⟩
      · rintro ⟨t, rfl, rfl⟩
        exact ⟨rfl, t, rfl⟩

theorem splitSegs_append_sep (xs : List Char) (c : Char) (ys : List Char)
    (hxs : ∀ a ∈ xs, isSep a = false) (hc : isSep c = true) :
    splitSegs (xs ++ c :: ys) = xs :: splitSegs ys := by
  induction xs with
  | nil => simp [splitSegs, hc]
  | cons a as ih =>
    have ha : isSep a = false := hxs a (List.mem_cons_self a as)
    have ih2 := ih fun b hb => hxs b (List.mem_cons_of_mem a hb)
    simp only [List.cons_append, splitSegs, List.append_eq, ih2, ha, Bool.false_eq_true,
      if_false, List.headD_cons, List.tail_cons]

/-- Structure of the head segment: either the whole path is one segment, or
the path is the head segment, a separator, and a remainder whose split gives
the remaining segments. -/
theorem splitSegs_head_structure :
    ∀ (file s : List Char) (rest : List (List Char)), splitSegs file = s :: rest →
      (rest = [] ∧ file = s) ∨
      (∃ c ys, isSep c = true ∧ file = s ++ c :: ys ∧ splitSegs ys = rest) := by
  intro file
  induction file with
  | nil =>
    intro s rest h
    simp only [splitSegs] at h
    injection h with h1 h2
    exact Or.inl ⟨h2.symm, h1⟩
  | cons c cs ih =>
    intro s rest h
    obtain ⟨h0, t, hsplit⟩ : ∃ h0 t, splitSegs cs = h0 :: t := by
      cases hs : splitSegs cs with
      | nil => exact absurd hs (splitSegs_ne_nil cs)
      | cons h0 t => exact ⟨h0, t, rfl⟩
    by_cases hc : isSep c = true
    · simp only [splitSegs, hc, if_true] at h
      obtain ⟨rfl, rfl⟩ := List.cons.inj h
      exact Or.inr ⟨c, cs, hc, rfl, rfl⟩
    · simp only [splitSegs, hsplit, hc, Bool.false_eq_true, if_false,
        List.headD_cons, List.tail_cons] at h
      obtain ⟨rfl, rfl⟩ := List.cons.inj h
      rcases ih h0 t hsplit with ⟨rfl, rfl⟩ | ⟨d, ys, hd, rfl, hys⟩
      · exact Or.inl ⟨rfl, rfl⟩
      · exact Or.inr ⟨d, ys, hd, by simp, hys⟩

theorem projectsSeg_no_sep : ∀ a ∈ projectsSeg, isSep a = false := by decide

/-- Characterization of the first guard of the snapshot filter: the path
starts with `projects/` or `projects\` exactly when its segment list starts
with the segment `projects` followed by at least one further segment. -/
theorem startsWithProjects_iff (file : List Char) :
    startsWithProjects file = true ↔
      ∃ rest, pathSegments file = projectsSeg :: rest ∧ rest ≠ [] := by
  constructor
  · intro h
    rcases Bool.or_eq_true .. |>.mp h with h1 | h1
    · obtain ⟨t, rfl⟩ := (leadsWith_iff _ _).mp h1
      have : ("projects/".toList : List Char) = projectsSeg ++ '/' :: [] ++ [] := by decide
      refine ⟨splitSegs t, ?_, splitSegs_ne_nil t⟩
      show splitSegs ("projects/".toList ++ t) = projectsSeg :: splitSegs t
      have e : ("projects/".toList : List Char) ++ t = projectsSeg ++ '/' :: t := by
        simp [projectsSeg]
      rw [e, splitSegs_append_sep projectsSeg '/' t projectsSeg_no_sep (by decide)]
    · obtain ⟨t, rfl⟩ := (leadsWith_iff _ _).mp h1
      refine ⟨splitSegs t, ?_, splitSegs_ne_nil t⟩
      show splitSegs ("projects\\".toList ++ t) = projectsSeg :: splitSegs t
      have e : ("projects\\".toList : List Char) ++ t = projectsSeg ++ '\\' :: t := by
        simp [projectsSeg]
      rw [e, splitSegs_append_sep projectsSeg '\\' t projectsSeg_no_sep (by decide)]
  · rintro ⟨rest, hsplit, hne⟩
    rcases splitSegs_head_structure file projectsSeg rest hsplit with ⟨rfl, rfl⟩ | hstruct
    · exact absurd rfl hne
    · obtain ⟨c, ys, hc, rfl, _⟩ := hstruct
      have hcc : c = '/' ∨ c = '\\' := by
        simpa [isSep, decide_eq_true_iff] using hc
      unfold startsWithProjects
      rcases hcc with rfl | rfl
      · apply Bool.or_eq_true .. |>.mpr
        left
        exact (leadsWith_iff _ _).mpr ⟨ys, by simp [projectsSeg]⟩
      · apply Bool.or_eq_true .. |>.mpr
        right
        exact (leadsWith_iff _ _).mpr ⟨ys, by simp [projectsSeg]⟩

/-- Characterization of the nested-`.claude` loop of the snapshot filter. -/
theorem hasNestedClaude_iff (parts : List (List Char)) :
    hasNestedClaude parts = true ↔
      ∃ i, 0 < i ∧ i < parts.length ∧ parts.getD i [] = claudeSeg := by
  unfold hasNestedClaude
  simp only [List.any_eq_true, List.mem_range, Bool.and_eq_true, decide_eq_true_eq,
    beq_iff_eq]
  constructor
  · rintro ⟨i, hi, hpos, heq⟩
    exact ⟨i, hpos, hi, heq⟩
  · rintro ⟨i, hpos, hi, heq⟩
    exact ⟨i, hi, hpos, heq⟩

/-! ## Claims -/

/-- C1 (counterexample): the claim states that with subtree exclusion active
the filter excludes every path with a whole segment `projects` anywhere and
also the path `projects` itself.  The path `foo/projects/bar` has such a
segment, and the path `projects` is the subtree itself, yet the filter of
`saveProfile`/`saveProfileSilent` keeps both. -/
theorem C1_counterexample :
    specSubtreeExcluded "foo/projects/bar".toList = true ∧
    snapshotFilterKeeps "foo/projects/bar".toList = true ∧
    specSubtreeExcluded "projects".toList = true ∧
    snapshotFilterKeeps "projects".toList = true := by
  decide

/-- C1 (amended): with subtree exclusion active, the filter excludes a path
for the `projects` rule exactly when its segment list starts with the
segment `projects` followed by at least one further segment (i.e. the path
starts with `projects/` or `projects\`); a `projects` segment in any other
position never triggers the rule, and the whole filter rejects exactly the
union of this rule and the nested-`.claude` rule. -/
theorem C1_subtree_exclusion_first_segment_only (file : List Char) :
    (snapshotFilterKeeps file = false ↔
      startsWithProjects file = true ∨ hasNestedClaude (pathSegments file) = true) ∧
    (startsWithProjects file = true ↔
      ∃ rest, pathSegments file = projectsSeg :: rest ∧ rest ≠ []) := by
  constructor
  · unfold snapshotFilterKeeps
    by_cases h1 : startsWithProjects file <;>
      by_cases h2 : hasNestedClaude (pathSegments file) <;>
      simp [h1, h2]
  · exact startsWithProjects_iff file

/-- C1 (witness): the amended characterization applied to the concrete path
`projects/a`, which the filter does exclude. -/
theorem C1_witness : snapshotFilterKeeps "projects/a".toList = false :=
  (C1_subtree_exclusion_first_segment_only _).1.mpr (Or.inl (by decide))

/-- C4: the nested-root rule of the snapshot filter excludes a relative
path exactly when some segment other than the first (index `i > 0`) equals
`.claude`; in particular a single-segment (top-level) path is never
excluded by this rule. -/
theorem C4_nested_root_rule (file : List Char) :
    (hasNestedClaude (pathSegments file) = true ↔
      ∃ i, 0 < i ∧ i < (pathSegments file).length ∧
        (pathSegments file).getD i [] = claudeSeg) ∧
    (∀ seg, pathSegments file = [seg] →
      hasNestedClaude (pathSegments file) = false) := by
  refine ⟨hasNestedClaude_iff _, ?_⟩
  intro seg h
  rw [h]
  simp [hasNestedClaude, List.range, List.range.loop]

/-- C4 (witness): the characterization applied to `foo/.claude/x`
(excluded: `.claude` at index 1) and to the top-level path `.claude`
(kept: single segment). -/
theorem C4_witness :
    hasNestedClaude (pathSegments "foo/.claude/x".toList) = true ∧
    hasNestedClaude (pathSegments ".claude".toList) = false :=
  ⟨(C4_nested_root_rule _).1.mpr ⟨1, by decide, by decide, by decide⟩,
   (C4_nested_root_rule _).2 claudeSeg (by decide)⟩

/-- C9: the size classification is monotonic in the raw byte length: with
the same encoding flag, every severity indicator of a smaller input is
implied by the larger input, and being within the API limit transfers
downward. -/
theorem C9_classify_monotonic (a b : Nat) (enc : Bool) (h : a ≤ b) :
    ((checkArchiveSize a enc).isLarge = true → (checkArchiveSize b enc).isLarge = true) ∧
    ((checkArchiveSize a enc).exceedsWebLimit = true →
      (checkArchiveSize b enc).exceedsWebLimit = true) ∧
    ((checkArchiveSize a enc).exceedsApiLimit = true →
      (checkArchiveSize b enc).exceedsApiLimit = true) ∧
    ((checkArchiveSize b enc).withinLimit = true →
      (checkArchiveSize a enc).withinLimit = true) := by
  cases enc <;>
    simp [checkArchiveSize, ceilBase64, GIST_SIZE_LIMIT_API, GIST_SIZE_LIMIT_WEB,
      GIST_SIZE_WARNING] <;>
    omega

/-- C9 (witness): the monotonicity theorem applied at the concrete sizes 0
and 5. -/
theorem C9_witness :
    0 ≤ 5 ∧
    (((checkArchiveSize 0 false).isLarge = true → (checkArchiveSize 5 false).isLarge = true) ∧
     ((checkArchiveSize 0 false).exceedsWebLimit = true →
       (checkArchiveSize 5 false).exceedsWebLimit = true) ∧
     ((checkArchiveSize 0 false).exceedsApiLimit = true →
       (checkArchiveSize 5 false).exceedsApiLimit = true) ∧
     ((checkArchiveSize 5 false).withinLimit = true →
       (checkArchiveSize 0 false).withinLimit = true)) :=
  ⟨by decide, C9_classify_monotonic 0 5 false (by decide)⟩

/-- C2: the size classification runs before any network call: whenever it
reports `exceedsApiLimit`, the silent save returns the pre-flight
size error without performing the gist lookup or the upload, the error
carries the remediation line selected by `skipProjects`, the two
remediation lines differ, and the interactive save likewise never reaches
the upload. -/
theorem C2_preflight_size_guard (zipLen : Nat) (skipProjects : Bool)
    (upload : UploadOutcome)
    (h : (checkArchiveSize zipLen).exceedsApiLimit = true) :
    Effect.netUpload ∉ (saveProfileSilentFlow zipLen skipProjects upload).1 ∧
    Effect.netFindOrCreateGist ∉ (saveProfileSilentFlow zipLen skipProjects upload).1 ∧
    (saveProfileSilentFlow zipLen skipProjects upload).2 =
      .error (.profileTooLarge zipLen (checkArchiveSize zipLen).actualUploadSize
        (remediationLine skipProjects)) ∧
    Effect.netUpload ∉ saveProfileFlow true zipLen skipProjects upload ∧
    remediationLine true ≠ remediationLine false := by
  have hw : (checkArchiveSize zipLen).withinLimit = false := by
    revert h
    simp [checkArchiveSize, GIST_SIZE_LIMIT_API]
  refine ⟨?_, ?_, ?_, ?_, ?_⟩
  · simp [saveProfileSilentFlow, hw]
  · simp [saveProfileSilentFlow, hw]
  · simp [saveProfileSilentFlow, hw]
  · simp [saveProfileFlow, hw]
  · decide

/-- C2 (witness): the scenario of the claim at raw size 31MiB: the encoded
estimate is 43232789 bytes (≈41.2MiB), over the 40MiB API limit, and the
silent save flow performs no upload and returns the size error. -/
theorem C2_witness :
    (checkArchiveSize (31 * 1024 * 1024)).exceedsApiLimit = true ∧
    Effect.netUpload ∉ (saveProfileSilentFlow (31 * 1024 * 1024) false UploadOutcome.ok).1 ∧
    (saveProfileSilentFlow (31 * 1024 * 1024) false UploadOutcome.ok).2 =
      .error (.profileTooLarge (31 * 1024 * 1024) 43232789 (remediationLine false)) :=
  have h : (checkArchiveSize (31 * 1024 * 1024)).exceedsApiLimit = true := by decide
  ⟨h, (C2_preflight_size_guard (31 * 1024 * 1024) false UploadOutcome.ok h).1,
   ((C2_preflight_size_guard (31 * 1024 * 1024) false UploadOutcome.ok h).2.2.1).trans rfl⟩

/-- The scheduler invariant: the in-flight save count is 1 when
`saveInProgress` is set and 0 otherwise. -/
def watchInv (s : WatchState) : Prop :=
  s.inFlight = (if s.saveInProgress then 1 else 0)

theorem watchInv_init : watchInv initWatchState := by
  simp [watchInv, initWatchState]

theorem watchInv_step (s : WatchState) (e : WatchEvent) (h : watchInv s) :
    watchInv (watchStep s e) := by
  cases e with
  | change => exact h
  | debounceFire elapsedOk =>
    by_cases hc : s.changeDetected = true
    · by_cases hk : elapsedOk = true
      · by_cases hs : s.saveInProgress = true
        · simpa [watchStep, watchInv, hc, hk, hs] using h
        · have hs2 : s.saveInProgress = false := Bool.eq_false_iff.mpr hs
          simp [watchInv, hs2] at h
          simp [watchStep, watchInv, hc, hk, hs2, h]
      · have hk2 : elapsedOk = false := Bool.eq_false_iff.mpr hk
        by_cases hp : s.pendingSave = true
        · simpa [watchStep, watchInv, hc, hk2, hp] using h
        · have hp2 : s.pendingSave = false := Bool.eq_false_iff.mpr hp
          simpa [watchStep, watchInv, hc, hk2, hp2] using h
    · have hc2 : s.changeDetected = false := Bool.eq_false_iff.mpr hc
      simpa [watchStep, watchInv, hc2] using h
  | throttleFire =>
    by_cases hp : s.pendingSave = true
    · by_cases hs : s.saveInProgress = true
      · simpa [watchStep, watchInv, hp, hs] using h
      · have hs2 : s.saveInProgress = false := Bool.eq_false_iff.mpr hs
        simp [watchInv, hs2] at h
        simp [watchStep, watchInv, hp, hs2, h]
    · have hp2 : s.pendingSave = false := Bool.eq_false_iff.mpr hp
      simpa [watchStep, watchInv, hp2] using h
  | saveFinish ok =>
    by_cases hz : s.inFlight = 0
    · simpa [watchStep, watchInv, hz] using h
    · simp only [watchStep, watchInv, hz, if_neg, if_false]
      by_cases hs : s.saveInProgress = true
      · simp [watchInv, hs] at h
        simp [hz, h]
      · have hs2 : s.saveInProgress = false := Bool.eq_false_iff.mpr hs
        simp [watchInv, hs2] at h
        exact absurd h hz

theorem watchInv_of_reachable {s : WatchState} (h : WatchReachable s) : watchInv s := by
  induction h with
  | init => exact watchInv_init
  | step e _ ih => exact watchInv_step _ e ih

/-- C3: in every reachable scheduler state at most one save is in flight;
when `saveInProgress` holds, a debounce-window completion or a throttle
timer completion starts no second save (the in-flight count is unchanged,
the request is dropped); and a finishing save resets `saveInProgress`. -/
theorem C3_watch_mutual_exclusion (s : WatchState) (hr : WatchReachable s) :
    s.inFlight ≤ 1 ∧
    (s.saveInProgress = true →
      (∀ elapsedOk, (watchStep s (.debounceFire elapsedOk)).inFlight = s.inFlight) ∧
      (watchStep s .throttleFire).inFlight = s.inFlight) ∧
    (∀ ok, 0 < s.inFlight → (watchStep s (.saveFinish ok)).saveInProgress = false) := by
  have hinv := watchInv_of_reachable hr
  refine ⟨?_, ?_, ?_⟩
  · unfold watchInv at hinv
    by_cases hs : s.saveInProgress = true <;> simp [hs] at hinv <;> omega
  · intro hs
    constructor
    · intro elapsedOk
      by_cases hc : s.changeDetected = true
      · cases elapsedOk <;> by_cases hp : s.pendingSave = true <;>
          simp [watchStep, hc, hs, hp]
      · have hc2 : s.changeDetected = false := Bool.eq_false_iff.mpr hc
        simp [watchStep, hc2]
    · by_cases hp : s.pendingSave = true <;> simp [watchStep, hp, hs]
  · intro ok hpos
    have hz : ¬ s.inFlight = 0 := by omega
    simp [watchStep, hz]

/-- C3 (witness): the mutual-exclusion theorem applied to the concrete
reachable state obtained by a change event followed by a debounce-window
completion, in which a save is in flight. -/
theorem C3_witness :
    (watchStep (watchStep initWatchState .change) (.debounceFire true)).inFlight ≤ 1 ∧
    (watchStep (watchStep (watchStep initWatchState .change) (.debounceFire true))
        .throttleFire).inFlight =
      (watchStep (watchStep initWatchState .change) (.debounceFire true)).inFlight :=
  have hr : WatchReachable (watchStep (watchStep initWatchState .change) (.debounceFire true)) :=
    WatchReachable.step _ (WatchReachable.step _ WatchReachable.init)
  have hmain := C3_watch_mutual_exclusion _ hr
  ⟨hmain.1, (hmain.2.1 (by decide)).2⟩

/-- A concrete flat-legacy credential record whose `expiry_date` is the
falsy-but-not-nullish value `0`. -/
def flatLegacyFields : List (String × JSValue) :=
  [ ("access_token", .str "a"), ("refresh_token", .str "r")
  , ("expiry_date", .num 0), ("expiresAt", .num 5) ]

/-- C5 (counterexample): the claim states `expiresAt = expiry_date ??
expiresAt` with `??` falling back only on null/undefined.  On a flat-legacy
record with `expiry_date = 0` the source (which uses `||`) produces
`expiresAt = 5`, while `expiry_date ?? expiresAt` is `0`, so the claim is
false at this input. -/
theorem C5_counterexample :
    jsGet (jsGet (convertCredentialsFormat (.obj flatLegacyFields) "darwin") "claudeAiOauth")
        "expiresAt" = .num 5 ∧
    jsNullish (jsGet (.obj flatLegacyFields) "expiry_date")
        (jsGet (.obj flatLegacyFields) "expiresAt") = .num 0 ∧
    JSValue.num 5 ≠ JSValue.num 0 := by
  refine ⟨rfl, rfl, ?_⟩
  intro h
  injection h with h
  exact absurd h (by decide)

/-- C5 (amended): for every record with a falsy `claudeAiOauth` field and a
truthy `access_token` field, and every target platform, conversion returns
the wrapped record whose fields fall back with JavaScript logical-or `||`
(on any falsy left operand, not only null/undefined): `expiresAt =
expiry_date || expiresAt`, `scopes = scopes || [default-scope]`,
`subscriptionType = subscriptionType || "max"`. -/
theorem C5_flat_legacy_conversion (fields : List (String × JSValue)) (p : String)
    (h1 : truthy (jsGet (.obj fields) "claudeAiOauth") = false)
    (h2 : truthy (jsGet (.obj fields) "access_token") = true) :
    convertCredentialsFormat (.obj fields) p =
      .obj [("claudeAiOauth", .obj
        [ ("accessToken", jsGet (.obj fields) "access_token")
        , ("refreshToken", jsGet (.obj fields) "refresh_token")
        , ("expiresAt", jsOr (jsGet (.obj fields) "expiry_date")
            (jsGet (.obj fields) "expiresAt"))
        , ("scopes", jsOr (jsGet (.obj fields) "scopes") (.arr [.str "user:inference"]))
        , ("subscriptionType", jsOr (jsGet (.obj fields) "subscriptionType")
            (.str "max")) ])] := by
  by_cases hp : p = "darwin" <;>
    simp [convertCredentialsFormat, hp, h1, h2, wrapFlatLegacy]

/-- C5 (witness): the amended conversion applied to the concrete
flat-legacy record, on the non-darwin platform. -/
theorem C5_witness :
    truthy (jsGet (.obj flatLegacyFields) "claudeAiOauth") = false ∧
    truthy (jsGet (.obj flatLegacyFields) "access_token") = true ∧
    convertCredentialsFormat (.obj flatLegacyFields) "linux" =
      .obj [("claudeAiOauth", .obj
        [ ("accessToken", .str "a"), ("refreshToken", .str "r")
        , ("expiresAt", .num 5), ("scopes", .arr [.str "user:inference"])
        , ("subscriptionType", .str "max") ])] :=
  ⟨rfl, rfl, (C5_flat_legacy_conversion flatLegacyFields "linux" rfl rfl).trans rfl⟩

theorem convert_of_wrapped (v : JSValue) (p : String)
    (h : truthy (jsGet v "claudeAiOauth") = true) :
    convertCredentialsFormat v p = v := by
  by_cases hp : p = "darwin" <;> simp [convertCredentialsFormat, hp, h]

/-- C8: credential conversion is idempotent: converting an already
converted record again, for the same target platform, is the identity. -/
theorem C8_convert_idempotent (fields : List (String × JSValue)) (p : String) :
    convertCredentialsFormat (convertCredentialsFormat (.obj fields) p) p =
      convertCredentialsFormat (.obj fields) p := by
  by_cases h1 : truthy (jsGet (.obj fields) "claudeAiOauth") = true
  · rw [convert_of_wrapped _ _ h1]
    exact convert_of_wrapped _ _ h1
  · have h1f := Bool.eq_false_iff.mpr h1
    by_cases h2 : truthy (jsGet (.obj fields) "access_token") = true
    · have e1 : convertCredentialsFormat (.obj fields) p = wrapFlatLegacy (.obj fields) := by
        by_cases hp : p = "darwin" <;>
          simp [convertCredentialsFormat, hp, h1f, h2]
      rw [e1]
      exact convert_of_wrapped _ _ rfl
    · have h2f := Bool.eq_false_iff.mpr h2
      by_cases h3 : truthy (jsGet (.obj fields) "accessToken") = true
      · have e1 : convertCredentialsFormat (.obj fields) p =
            .obj [("claudeAiOauth", .obj fields)] := by
          by_cases hp : p = "darwin" <;>
            simp [convertCredentialsFormat, hp, h1f, h2f, h3]
        rw [e1]
        exact convert_of_wrapped _ _ rfl
      · have h3f := Bool.eq_false_iff.mpr h3
        have e1 : convertCredentialsFormat (.obj fields) p = .obj fields := by
          by_cases hp : p = "darwin" <;>
            simp [convertCredentialsFormat, hp, h1f, h2f, h3f]
        rw [e1]
        exact e1

/-- C10: credential conversion does not depend on the target platform: the
darwin arm and the non-darwin arm of `convertCredentialsFormat` compute
identical results. -/
theorem C10_convert_platform_independent (fields : List (String × JSValue))
    (p1 p2 : String) :
    convertCredentialsFormat (.obj fields) p1 = convertCredentialsFormat (.obj fields) p2 := by
  by_cases hp1 : p1 = "darwin" <;> by_cases hp2 : p2 = "darwin" <;>
    simp [convertCredentialsFormat, hp1, hp2]

/-- C6: the downloaded-profile verifier accepts either credential export
form: with both absent the result is invalid with the missing-credentials
issue; with exactly one present, parsed, wrapped and usable (and the
essential configuration file present) the result is valid; and a
present-but-unparseable export of either form makes the result invalid
with its not-valid-JSON issue message. -/
theorem C6_verify_credential_forms :
    (∀ cj, (verifyDownloadedProfile true none none cj).valid = false ∧
      "Missing: Claude credentials (no .credentials.json or .macos.credentials.json found)" ∈
        (verifyDownloadedProfile true none none cj).issues) ∧
    (∀ v, truthy (jsGet v "claudeAiOauth") = true →
      truthy (jsGet (jsGet v "claudeAiOauth") "accessToken") = true →
      truthy (jsGet (jsGet v "claudeAiOauth") "refreshToken") = true →
      (verifyDownloadedProfile true (some (.ok v)) none (some true)).valid = true ∧
      (verifyDownloadedProfile true none (some (.ok v)) (some true)).valid = true) ∧
    (∀ m mac cj, (verifyDownloadedProfile true (some (.error m)) mac cj).valid = false ∧
      ("Linux credentials file is not valid JSON: " ++ m) ∈
        (verifyDownloadedProfile true (some (.error m)) mac cj).issues) ∧
    (∀ m lin cj, (verifyDownloadedProfile true lin (some (.error m)) cj).valid = false ∧
      ("macOS credentials file is not valid JSON: " ++ m) ∈
        (verifyDownloadedProfile true lin (some (.error m)) cj).issues) := by
  refine ⟨?_, ?_, ?_, ?_⟩
  · intro cj
    constructor
    · simp [verifyDownloadedProfile]
    · simp [verifyDownloadedProfile]
  · intro v h1 h2 h3
    constructor
    · simp [verifyDownloadedProfile, checkLinuxCredsFile, checkMacosCredsFile, h1, h2, h3]
    · simp [verifyDownloadedProfile, checkLinuxCredsFile, checkMacosCredsFile, h1, h2, h3]
  · intro m mac cj
    constructor
    · simp [verifyDownloadedProfile, checkLinuxCredsFile]
    · simp [verifyDownloadedProfile, checkLinuxCredsFile]
  · intro m lin cj
    constructor
    · simp [verifyDownloadedProfile, checkMacosCredsFile]
    · simp [verifyDownloadedProfile, checkMacosCredsFile]

/-- A parsed, wrapped, usable credential export. -/
def usableWrapped : JSValue :=
  .obj [("claudeAiOauth", .obj [("accessToken", .str "a"), ("refreshToken", .str "r")])]

/-- C6 (witness): the verifier theorem applied at concrete inputs: both
forms absent, each form alone present and usable, and an unparseable
export. -/
theorem C6_witness :
    (verifyDownloadedProfile true none none (some true)).valid = false ∧
    (verifyDownloadedProfile true (some (.ok usableWrapped)) none (some true)).valid = true ∧
    (verifyDownloadedProfile true none (some (.ok usableWrapped)) (some true)).valid = true ∧
    (verifyDownloadedProfile true (some (.error "Unexpected end of JSON input")) none
      (some true)).valid = false :=
  ⟨(C6_verify_credential_forms.1 (some true)).1,
   (C6_verify_credential_forms.2.1 usableWrapped rfl rfl rfl).1,
   (C6_verify_credential_forms.2.1 usableWrapped rfl rfl rfl).2,
   (C6_verify_credential_forms.2.2.1 "Unexpected end of JSON input" none (some true)).1⟩

/-- C7 (counterexample): the claim states every save/restore staging
directory is removed on every exit path.  On the size-check failure path of
`saveProfile` (31MiB archive) and the profile-not-found path of
`restoreProfile`, the process exits without removing the `mkdtemp`
directory. -/
theorem C7_counterexample :
    cleansUpTemp (saveProfileFlow true (31 * 1024 * 1024) false .ok) = false ∧
    cleansUpTemp (restoreProfileFlow false true true) = false := by
  decide

/-- C7 (amended): the verify operation (`verifyProfile`) and the silent
save (`saveProfileSilent`) remove their staging directory on every exit
path, exceptional ones included (their `finally` blocks); `saveProfile`
removes it exactly on the no-files path and the fully successful path, and
`restoreProfile` exactly on its fully successful path — on every thrown
error their `catch` blocks exit the process leaving the staging directory
behind. -/
theorem C7_staging_cleanup :
    (∀ found nonEmpty extractOk,
      cleansUpTemp (verifyProfileFlow found nonEmpty extractOk) = true) ∧
    (∀ zipLen skipProjects upload,
      cleansUpTemp (saveProfileSilentFlow zipLen skipProjects upload).1 = true) ∧
    (∀ hasFiles zipLen skipProjects upload,
      cleansUpTemp (saveProfileFlow hasFiles zipLen skipProjects upload) =
        (!hasFiles || ((checkArchiveSize zipLen).withinLimit && (upload == .ok)))) ∧
    (∀ found nonEmpty verifyValid,
      cleansUpTemp (restoreProfileFlow found nonEmpty verifyValid) =
        (found && (nonEmpty && verifyValid))) := by
  refine ⟨?_, ?_, ?_, ?_⟩
  · intro f ne ex
    cases f <;> cases ne <;> cases ex <;> simp [verifyProfileFlow, cleansUpTemp]
  · intro zipLen sp up
    cases hw : (checkArchiveSize zipLen).withinLimit <;> cases up <;>
      simp [saveProfileSilentFlow, cleansUpTemp, hw]
  · intro hf zipLen sp up
    cases hf <;> cases hw : (checkArchiveSize zipLen).withinLimit <;> cases up <;>
      simp [saveProfileFlow, cleansUpTemp, hw]
  · intro f ne vv
    cases f <;> cases ne <;> cases vv <;> simp [restoreProfileFlow, cleansUpTemp]

end ClaudeProfiles
